import Mathlib

/-!
Verification development for the `django_advanced_logging` repository.

The definitions below are shallow embeddings of the Python code in
`advanced_logging/core/handlers.py`, `advanced_logging/core/filters.py`,
`advanced_logging/core/formatters.py` and `advanced_logging/core/logger.py`.
Python strings are modelled as `List Char`, Python `int` as `Int` or `Nat`
where the value is known non-negative, and the `float` field
`flush_interval` as a rational number.  Interaction with the database is
modelled by two boolean oracles (`connectOk`: does `psycopg.connect`
succeed; `insertOk`: does the multi-row insert/commit succeed) and an
explicit trace of database actions.
-/

namespace AdvancedLogging

/-! ## Bounded queue (`PostgreSQLHandler.emit`, handlers.py lines 307-317)

`emit` models one call of `PostgreSQLHandler.emit` on the `queue.Queue`
of capacity `C` (`config.buffer_size`): `put_nowait` raises `queue.Full`
exactly when `0 < C` and the queue already holds at least `C` items, in
which case the handler pops the oldest record (`get_nowait`) and enqueues
the new one.  The Python method catches every exception, so `emit` is a
total function: it never blocks and never raises to the caller. -/

def emit (C : Nat) (q : List α) (r : α) : List α :=
  if 0 < C ∧ C ≤ q.length then q.drop 1 ++ [r] else q ++ [r]

/-- All records of `xs` enqueued in order, starting from an empty queue,
with no intervening dequeues. -/
def enqueueAll (C : Nat) (xs : List α) : List α :=
  xs.foldl (emit C) []

theorem suffix_append_same {a b : List α} (h : a <:+ b) (c : List α) :
    a ++ c <:+ b ++ c := by
  obtain ⟨t, ht⟩ := h
  exact ⟨t, by rw [← List.append_assoc, ht]⟩

theorem emit_suffix {q l : List α} (h : q <:+ l) (C : Nat) (r : α) :
    emit C q r <:+ l ++ [r] := by
  unfold emit
  split
  · exact suffix_append_same ((List.drop_suffix 1 q).trans h) [r]
  · exact suffix_append_same h [r]

theorem emit_length {C : Nat} (hC : 0 < C) {q : List α} (hq : q.length ≤ C)
    (r : α) : (emit C q r).length = min C (q.length + 1) := by
  unfold emit
  split
  · next hfull =>
    simp only [List.length_append, List.length_drop, List.length_cons,
      List.length_nil]
    omega
  · next hnot =>
    simp only [List.length_append, List.length_cons, List.length_nil]
    omega

theorem foldl_emit_suffix {C : Nat} (xs : List α) :
    ∀ (q l : List α), q <:+ l → xs.foldl (emit C) q <:+ l ++ xs := by
  induction xs with
  | nil => intro q l h; simpa using h
  | cons x xs ih =>
    intro q l h
    have h2 : emit C q x <:+ l ++ [x] := emit_suffix h C x
    have h3 := ih (emit C q x) (l ++ [x]) h2
    simpa [List.append_assoc] using h3

theorem foldl_emit_length {C : Nat} (hC : 0 < C) (xs : List α) :
    ∀ (q : List α), q.length ≤ C →
      (xs.foldl (emit C) q).length = min C (q.length + xs.length) := by
  induction xs with
  | nil => intro q hq; simp; omega
  | cons x xs ih =>
    intro q hq
    have hlen := emit_length hC hq x
    have hle : (emit C q x).length ≤ C := by omega
    have := ih (emit C q x) hle
    simp only [List.foldl_cons, List.length_cons]
    rw [this, hlen]
    omega

/-- C3: for every sequence of more than `C` enqueues on a bounded queue of
capacity `C > 0`, starting empty with no intervening dequeues, the queue
holds exactly the `C` most recently enqueued records: the oldest ones have
been evicted (drop-oldest).  The model `emit` is a total function, i.e.
the caller is never blocked and no exception escapes `emit`. -/
theorem enqueueAll_drop_oldest {C : Nat} (xs : List α) (hC : 0 < C)
    (hlen : C < xs.length) :
    enqueueAll C xs = xs.drop (xs.length - C) := by
  have hsuf : enqueueAll C xs <:+ xs := by
    have := foldl_emit_suffix (C := C) xs [] [] (List.suffix_refl [])
    simpa [enqueueAll] using this
  have hlen2 : (enqueueAll C xs).length = C := by
    have := foldl_emit_length hC xs [] (by simp)
    simp only [enqueueAll] at *
    rw [this]
    omega
  obtain ⟨t, ht⟩ := hsuf
  have htlen : t.length = xs.length - C := by
    have := congrArg List.length ht
    simp only [List.length_append] at this
    omega
  calc enqueueAll C xs = (t ++ enqueueAll C xs).drop t.length := by
        rw [List.drop_left]
    _ = xs.drop (xs.length - C) := by rw [ht, htlen]

/-- Witness for C3 at a concrete input: capacity 2, enqueues R1,R2,R3
(represented as 1,2,3); the queue retains exactly [2, 3]. -/
theorem enqueueAll_drop_oldest_witness :
    enqueueAll 2 [1, 2, 3] = ([1, 2, 3].drop ([1, 2, 3].length - 2) : List Nat) :=
  enqueueAll_drop_oldest [1, 2, 3] (by decide) (by decide)

/-! ## Batch writer (`PostgreSQLHandler`, handlers.py lines 144-260)

The database is modelled by two oracles: `connectOk` tells whether a call
of `self._connect()` (i.e. `psycopg.connect`) succeeds, `insertOk` whether
the `executemany` + `commit` of the current batch succeeds.  Every
database call performed by the code is recorded in an action trace. -/

/-- Mutable handler state touched by `_write_batch`: the `connected` flag,
whether `self.connection` holds a (possibly stale) connection object, and
the two statistics counters `logs_written` / `logs_failed`. -/
structure PgState where
  connected : Bool
  hasConn : Bool
  logs_written : Nat
  logs_failed : Nat
deriving DecidableEq

/-- Database calls issued by `_write_batch`. -/
inductive DbAction where
  | connectAttempt
  | insertExec
  | commitTx
  | rollbackTx
deriving DecidableEq

/-- `PostgreSQLHandler._write_batch` (handlers.py lines 224-260).
The body is one `try`: if disconnected, `_connect()` (raising on failure);
then `executemany` of the multi-row insert and `commit`, incrementing
`logs_written` by the batch size.  The `except` clause rolls back when a
connection object exists, sets `connected = False` and increments
`logs_failed` by the batch size.  An empty batch returns immediately. -/
def writeBatch (connectOk insertOk : Bool) (st : PgState) (batch : List α) :
    PgState × List DbAction :=
  if batch.isEmpty then (st, [])
  else if st.connected = false ∧ connectOk = false then
    ({ st with connected := false,
               logs_failed := st.logs_failed + batch.length },
     DbAction.connectAttempt ::
       (if st.hasConn then [DbAction.rollbackTx] else []))
  else
    let pre : List DbAction :=
      if st.connected then [] else [DbAction.connectAttempt]
    let st1 : PgState :=
      if st.connected then st else { st with connected := true, hasConn := true }
    if insertOk then
      ({ st1 with logs_written := st1.logs_written + batch.length },
       pre ++ [DbAction.insertExec, DbAction.commitTx])
    else
      ({ st1 with connected := false,
                  logs_failed := st1.logs_failed + batch.length },
       pre ++ [DbAction.insertExec, DbAction.rollbackTx])

/-- State owned by the writer thread: the shared queue, the in-memory
batch accumulator, and the handler state. -/
structure WriterState (α : Type) where
  queue : List α
  batch : List α
  pg : PgState
deriving DecidableEq

/-- The `log_queue.get(timeout=flush_interval)` step of `_writer_loop`:
if the queue is non-empty the oldest record is pulled and appended to the
batch; otherwise the `get` times out after one flush interval and the
`queue.Empty` exception is swallowed (`pass`). -/
def pullOnce (s : WriterState α) : WriterState α :=
  match s.queue with
  | [] => s
  | r :: rest => { s with queue := rest, batch := s.batch ++ [r] }

/-- One iteration of the `while self.running` loop of
`PostgreSQLHandler._writer_loop` (handlers.py lines 202-218): pull with
timeout, then write the batch if and only if its length has reached
`config.batch_size`, in which case the batch is reset to `[]`. -/
def writerStep (batchSize : Nat) (connectOk insertOk : Bool)
    (s : WriterState α) : WriterState α × List DbAction :=
  let s1 := pullOnce s
  if batchSize ≤ s1.batch.length then
    let res := writeBatch connectOk insertOk s1.pg s1.batch
    ({ s1 with batch := [], pg := res.1 }, res.2)
  else (s1, [])

/-- Observable outcome of `PostgreSQLHandler._initialize`
(handlers.py lines 144-178): the whole body is one `try` containing the
psycopg import, `self._connect()` and `self._start_writer_thread()`; the
`except` clause only prints.  `importOk` tells whether psycopg/psycopg2
can be imported, `connectOk` whether the initial connection succeeds. -/
structure HandlerInit where
  connected : Bool
  writerStarted : Bool
  running : Bool
deriving DecidableEq

def initializeHandler (importOk connectOk : Bool) : HandlerInit :=
  if importOk = false then ⟨false, false, false⟩
  else if connectOk = false then ⟨false, false, false⟩
  else ⟨true, true, true⟩

/-- C1 (divergence witness): in the end-to-end scenario — queue capacity 2,
batch size 10, records R1,R2,R3 enqueued (queue retains [R2,R3]), no
database connection available — running the writer loop through both
pulls and the subsequent flush-interval timeout leaves the failure
counter at 0 (the claim requires 2), the queue empty, the two records
stuck in the in-memory batch, and no database action attempted: the code
only writes when the batch reaches `batch_size`; a timed-out pull with a
non-empty batch triggers no write. -/
theorem writerLoop_timeout_no_flush :
    (let s0 : WriterState Nat :=
      ⟨enqueueAll 2 [1, 2, 3], [], ⟨false, false, 0, 0⟩⟩
    let s1 := (writerStep 10 false false s0).1
    let s2 := (writerStep 10 false false s1).1
    let s3 := (writerStep 10 false false s2).1
    s3.pg.logs_failed = 0 ∧ s3.queue = [] ∧ s3.batch = [2, 3] ∧
      (writerStep 10 false false s2).2 = []) := by
  decide

/-- C4: a non-empty batch written while disconnected with reconnection
failing increments `logs_failed` by exactly the batch size, leaves
`logs_written` untouched and the writer disconnected; any exception
during the insert causes a rollback, marks the writer disconnected, and
likewise increments `logs_failed` by the batch size dropping the batch;
the loop always resets the batch after a write attempt and the queue is
never touched by the write (one step removes at most the pulled head). -/
theorem writeBatch_failure_semantics :
    (∀ (st : PgState) (batch : List Nat) (insertOk : Bool),
      batch ≠ [] → st.connected = false →
      (writeBatch false insertOk st batch).1.logs_failed
          = st.logs_failed + batch.length ∧
        (writeBatch false insertOk st batch).1.logs_written
          = st.logs_written ∧
        (writeBatch false insertOk st batch).1.connected = false) ∧
    (∀ (st : PgState) (batch : List Nat) (connectOk : Bool),
      batch ≠ [] → (st.connected = true ∨ connectOk = true) →
      (writeBatch connectOk false st batch).1.logs_failed
          = st.logs_failed + batch.length ∧
        (writeBatch connectOk false st batch).1.logs_written
          = st.logs_written ∧
        (writeBatch connectOk false st batch).1.connected = false ∧
        DbAction.rollbackTx ∈ (writeBatch connectOk false st batch).2) ∧
    (∀ (batchSize : Nat) (connectOk insertOk : Bool) (s : WriterState Nat),
      (writerStep batchSize connectOk insertOk s).1.queue = s.queue.drop 1 ∧
        (batchSize ≤ (pullOnce s).batch.length →
          (writerStep batchSize connectOk insertOk s).1.batch = [])) := by
  refine ⟨?_, ?_, ?_⟩
  · intro st batch insertOk hb hconn
    have hbe : batch.isEmpty = false := by
      cases batch with
      | nil => exact absurd rfl hb
      | cons x xs => rfl
    simp [writeBatch, hbe, hconn]
  · intro st batch connectOk hb hc
    have hbe : batch.isEmpty = false := by
      cases batch with
      | nil => exact absurd rfl hb
      | cons x xs => rfl
    rcases hc with hc | hc
    · simp [writeBatch, hbe, hc]
    · cases hst : st.connected <;> simp [writeBatch, hbe, hc, hst]
  · intro batchSize connectOk insertOk s
    constructor
    · have h1 : (writerStep batchSize connectOk insertOk s).1.queue
          = (pullOnce s).queue := by
        simp only [writerStep]
        split <;> rfl
      have h2 : (pullOnce s).queue = s.queue.drop 1 := by
        cases hq : s.queue <;> simp [pullOnce, hq]
      rw [h1, h2]
    · intro hlen
      simp [writerStep, hlen]

/-- Witness for C4 at concrete inputs: disconnected state with failing
reconnection on batch [7, 8], insert failure from a connected state on
batch [5], and a loop step at batch size 1. -/
theorem writeBatch_failure_semantics_witness :
    ((writeBatch false true ⟨false, false, 3, 4⟩ [7, 8]).1.logs_failed
        = 4 + 2 ∧
      (writeBatch false true ⟨false, false, 3, 4⟩ [7, 8]).1.logs_written
        = 3 ∧
      (writeBatch false true ⟨false, false, 3, 4⟩ [7, 8]).1.connected
        = false) ∧
    (DbAction.rollbackTx ∈ (writeBatch true false ⟨true, true, 0, 0⟩ [5]).2) ∧
    ((writerStep 1 false false ⟨[5, 6], [], ⟨false, false, 0, 0⟩⟩).1.queue
        = [6]) := by
  refine ⟨?_, ?_, ?_⟩
  · exact (writeBatch_failure_semantics.1 ⟨false, false, 3, 4⟩ [7, 8] true
      (by decide) (by decide))
  · exact (writeBatch_failure_semantics.2.1 ⟨true, true, 0, 0⟩ [5] true
      (by decide) (Or.inl rfl)).2.2.2
  · exact ((writeBatch_failure_semantics.2.2 1 false false
      ⟨[5, 6], [], ⟨false, false, 0, 0⟩⟩).1)

/-- C5: a batch whose multi-row insert commits successfully increments
`logs_written` by exactly the batch size, leaves `logs_failed` untouched
(and the trace shows the commit); after any write attempt the loop clears
the in-memory batch. -/
theorem writeBatch_success_semantics :
    (∀ (st : PgState) (batch : List Nat) (connectOk : Bool),
      batch ≠ [] → (st.connected = true ∨ connectOk = true) →
      (writeBatch connectOk true st batch).1.logs_written
          = st.logs_written + batch.length ∧
        (writeBatch connectOk true st batch).1.logs_failed
          = st.logs_failed ∧
        (writeBatch connectOk true st batch).1.connected = true ∧
        DbAction.commitTx ∈ (writeBatch connectOk true st batch).2) ∧
    (∀ (batchSize : Nat) (connectOk : Bool) (s : WriterState Nat),
      batchSize ≤ (pullOnce s).batch.length →
      (writerStep batchSize connectOk true s).1.batch = []) := by
  constructor
  · intro st batch connectOk hb hc
    have hbe : batch.isEmpty = false := by
      cases batch with
      | nil => exact absurd rfl hb
      | cons x xs => rfl
    rcases hc with hc | hc
    · simp [writeBatch, hbe, hc]
    · cases hst : st.connected <;> simp [writeBatch, hbe, hc, hst]
  · intro batchSize connectOk s hlen
    simp [writerStep, hlen]

/-- Witness for C5 at concrete inputs: a batch [1, 2, 3] committed from a
connected state, and a loop step at batch size 1 clearing the batch. -/
theorem writeBatch_success_semantics_witness :
    ((writeBatch false true ⟨true, true, 10, 2⟩ [1, 2, 3]).1.logs_written
        = 10 + 3 ∧
      (writeBatch false true ⟨true, true, 10, 2⟩ [1, 2, 3]).1.logs_failed
        = 2) ∧
    (writerStep 1 false true ⟨[9], [], ⟨true, true, 0, 0⟩⟩).1.batch = [] := by
  constructor
  · exact ⟨(writeBatch_success_semantics.1 ⟨true, true, 10, 2⟩ [1, 2, 3] false
      (by decide) (Or.inl rfl)).1,
      (writeBatch_success_semantics.1 ⟨true, true, 10, 2⟩ [1, 2, 3] false
      (by decide) (Or.inl rfl)).2.1⟩
  · exact writeBatch_success_semantics.2 1 false
      ⟨[9], [], ⟨true, true, 0, 0⟩⟩ (by decide)

/-- C2 (counterexample): when the initial connection attempt at handler
construction fails (`importOk = true`, `connectOk = false`), the
exception raised by `_connect` skips `_start_writer_thread` inside the
single `try` of `_initialize`, so the background writer thread is never
started and the loop flag `running` is never set — contradicting the
claim that the writer keeps operating after a failed construction. -/
theorem initializeHandler_failed_connect_no_writer :
    (initializeHandler true false).writerStarted = false ∧
      (initializeHandler true false).running = false := by
  decide

/-- C2 (amended): a failed initial connection leaves the handler
disconnected with the writer thread never started (so nothing enqueued
afterwards is ever written); only while the writer loop does run is a
reconnection attempted immediately before every batch write when
disconnected — it is the first database action of the attempt — and a
successful lazy reconnection lets the batch be committed. -/
theorem initializeHandler_failure_and_lazy_reconnect :
    ((initializeHandler true false).connected = false ∧
      (initializeHandler true false).writerStarted = false) ∧
    (∀ (connectOk insertOk : Bool) (st : PgState) (batch : List Nat),
      batch ≠ [] → st.connected = false →
      (writeBatch connectOk insertOk st batch).2.head?
        = some DbAction.connectAttempt) ∧
    (∀ (st : PgState) (batch : List Nat),
      batch ≠ [] → st.connected = false →
      (writeBatch true true st batch).1.connected = true ∧
        (writeBatch true true st batch).1.logs_written
          = st.logs_written + batch.length) := by
  refine ⟨by decide, ?_, ?_⟩
  · intro connectOk insertOk st batch hb hconn
    have hbe : batch.isEmpty = false := by
      cases batch with
      | nil => exact absurd rfl hb
      | cons x xs => rfl
    cases connectOk <;> cases insertOk <;> simp [writeBatch, hbe, hconn]
  · intro st batch hb hconn
    have hbe : batch.isEmpty = false := by
      cases batch with
      | nil => exact absurd rfl hb
      | cons x xs => rfl
    simp [writeBatch, hbe, hconn]

/-- Witness for the amended C2 at concrete inputs. -/
theorem initializeHandler_failure_and_lazy_reconnect_witness :
    ((writeBatch false false ⟨false, false, 0, 0⟩ [4]).2.head?
        = some DbAction.connectAttempt) ∧
    (writeBatch true true ⟨false, false, 0, 0⟩ [4]).1.connected = true := by
  exact ⟨initializeHandler_failure_and_lazy_reconnect.2.1 false false
      ⟨false, false, 0, 0⟩ [4] (by decide) rfl,
    (initializeHandler_failure_and_lazy_reconnect.2.2
      ⟨false, false, 0, 0⟩ [4] (by decide) rfl).1⟩

/-! ## Persistence configuration (`PostgreSQLConfig`, handlers.py lines 19-55)

`PostgreSQLConfig` is a plain `@dataclass` with defaults and no
`__post_init__`; `PostgreSQLHandler.__init__` (lines 123-142) stores the
config, builds the queue and counters, and performs no validation of any
field.  Python strings are `List Char`, ints are `Int`, and the float
`flush_interval` is modelled as a rational number. -/

structure PostgreSQLConfig where
  host : List Char
  port : Int
  database : List Char
  user : List Char
  password : List Char
  table_name : List Char
  schema : List Char
  ssl_mode : List Char
  buffer_size : Int
  batch_size : Int
  flush_interval : ℚ
deriving DecidableEq

/-- The dataclass defaults of `PostgreSQLConfig`. -/
def postgreSQLConfigDefault : PostgreSQLConfig :=
  ⟨"localhost".data, 5432, "logs".data, "postgres".data, [],
    "application_logs".data, "public".data, "prefer".data, 1000, 10, 5⟩

/-- Handler attributes set by `PostgreSQLHandler.__init__` before
`_initialize` runs: stored config, empty queue, flags and counters. -/
structure PostgreSQLHandlerState where
  config : PostgreSQLConfig
  log_queue : List Nat
  connected : Bool
  running : Bool
  logs_written : Nat
  logs_failed : Nat
deriving DecidableEq

/-- `PostgreSQLHandler.__init__` accepts any config unconditionally. -/
def mkPostgreSQLHandler (config : PostgreSQLConfig) : PostgreSQLHandlerState :=
  ⟨config, [], false, false, 0, 0⟩

/-- C6 (counterexample): a configuration with `batch_size = 20` greater
than `buffer_size = 5` and `flush_interval = 0` is constructible — the
dataclass performs no validation — and `PostgreSQLHandler.__init__`
accepts it unchanged, refuting the claim that no configuration violating
`batch_size ≤ buffer_size` and `flush_interval > 0` can be constructed
or accepted. -/
theorem postgreSQLConfig_invariant_not_enforced :
    (mkPostgreSQLHandler
        { postgreSQLConfigDefault with
            buffer_size := 5, batch_size := 20, flush_interval := 0 }).config
      = { postgreSQLConfigDefault with
            buffer_size := 5, batch_size := 20, flush_interval := 0 } ∧
    ¬({ postgreSQLConfigDefault with
          buffer_size := 5, batch_size := 20,
          flush_interval := 0 }.batch_size
        ≤ { postgreSQLConfigDefault with
              buffer_size := 5, batch_size := 20,
              flush_interval := 0 }.buffer_size) ∧
    ¬(0 < { postgreSQLConfigDefault with
              buffer_size := 5, batch_size := 20,
              flush_interval := 0 }.flush_interval) := by
  refine ⟨rfl, by decide, by decide⟩

/-- C6 (amended): the handler never validates its configuration, so only
the dataclass defaults are guaranteed to satisfy the spec invariants:
the default configuration has `batch_size = 10 ≤ 1000 = buffer_size` and
`flush_interval = 5 > 0`, while violating configurations are accepted
(see the counterexample). -/
theorem postgreSQLConfigDefault_satisfies_invariants :
    postgreSQLConfigDefault.batch_size ≤ postgreSQLConfigDefault.buffer_size ∧
      0 < postgreSQLConfigDefault.flush_interval ∧
      (mkPostgreSQLHandler postgreSQLConfigDefault).config
        = postgreSQLConfigDefault := by
  refine ⟨by decide, by decide, rfl⟩

/-! ## Sensitive-data masking (`SensitiveDataFilter`, filters.py lines 52-129)

For each sensitive key the code runs
`re.sub(rf"({pattern}['\"]?\s*[:=]\s*['\"]?)([^'\",\s\x7d]+)",
r"\1***MASKED***", text, flags=re.IGNORECASE)`.
The matcher below implements exactly that pattern over `List Char`
(ASCII whitespace): the key matched case-insensitively, an optional
quote, optional whitespace, a `:` or `=` separator, optional whitespace,
an optional quote, then one or more characters that are not a quote, a
comma, whitespace or a closing brace.  `re.sub` scans left to right and
replaces non-overlapping matches, keeping group 1 and substituting the
captured value (group 2) by the fixed mask token. -/

def maskToken : List Char := "***MASKED***".data

def SENSITIVE_PATTERNS : List (List Char) :=
  ["password".data, "passwd".data, "pwd".data, "token".data,
    "secret".data, "api_key".data, "apikey".data, "access_key".data,
    "private_key".data, "credential".data, "auth".data, "bearer".data,
    "authorization".data]

def isQuoteChar (c : Char) : Bool :=
  c == Char.ofNat 39 || c == Char.ofNat 34

def isPySpace (c : Char) : Bool :=
  c == ' ' || c == Char.ofNat 9 || c == Char.ofNat 10 ||
    c == Char.ofNat 13 || c == Char.ofNat 12 || c == Char.ofNat 11

def isSepChar (c : Char) : Bool :=
  c == ':' || c == '='

def isValueChar (c : Char) : Bool :=
  !(isQuoteChar c || c == ',' || isPySpace c || c == Char.ofNat 125)

/-- Case-insensitive literal match of the (lowercase) key at the head of
the text, returning the matched original-case characters and the rest. -/
def stripCI : List Char → List Char → Option (List Char × List Char)
  | [], cs => some ([], cs)
  | _ :: _, [] => none
  | p :: ps, c :: cs =>
      if c.toLower == p then
        match stripCI ps cs with
        | some (m, rest) => some (c :: m, rest)
        | none => none
      else none

/-- `\s*[:=]`: maximal whitespace then one separator character. -/
def sepAfterSpaces (cs : List Char) : Option (List Char × List Char) :=
  match cs.dropWhile isPySpace with
  | c :: rest =>
      if isSepChar c then some (cs.takeWhile isPySpace ++ [c], rest)
      else none
  | [] => none

/-- `['\"]?\s*[:=]` with the regex backtracking on the optional quote. -/
def quoteSepPart (cs : List Char) : Option (List Char × List Char) :=
  match cs with
  | c :: rest =>
      if isQuoteChar c then
        match sepAfterSpaces rest with
        | some (m, r) => some (c :: m, r)
        | none => sepAfterSpaces cs
      else sepAfterSpaces cs
  | [] => none

/-- `\s*['\"]?([^'\",\s\x7d]+)`: returns the part of group 1 after the
separator, the captured value (group 2), and the rest of the text. -/
def valuePart (cs : List Char) :
    Option (List Char × List Char × List Char) :=
  match cs.dropWhile isPySpace with
  | c :: rest2 =>
      if isQuoteChar c then
        let v := rest2.takeWhile isValueChar
        if v.isEmpty then none
        else some (cs.takeWhile isPySpace ++ [c], v,
          rest2.dropWhile isValueChar)
      else
        let r := cs.dropWhile isPySpace
        let v := r.takeWhile isValueChar
        if v.isEmpty then none
        else some (cs.takeWhile isPySpace, v, r.dropWhile isValueChar)
  | [] => none

/-- Whole-pattern match at the head of the text: on success returns the
text of group 1 and the rest of the input after the full match. -/
def matchAt (p cs : List Char) : Option (List Char × List Char) :=
  match stripCI p cs with
  | none => none
  | some (key, r1) =>
      match quoteSepPart r1 with
      | none => none
      | some (m1, r2) =>
          match valuePart r2 with
          | none => none
          | some (m2, _v, rest) => some (key ++ m1 ++ m2, rest)

/-- The left-to-right non-overlapping scan of `re.sub`; the fuel bounds
the number of iterations (each consumes at least one character). -/
def subScan (p : List Char) : Nat → List Char → List Char
  | 0, cs => cs
  | _ + 1, [] => []
  | n + 1, c :: cs =>
      match matchAt p (c :: cs) with
      | some (g1, rest) => g1 ++ maskToken ++ subScan p n rest
      | none => c :: subScan p n cs

/-- One `re.sub` call for one sensitive pattern. -/
def maskOnePattern (p text : List Char) : List Char :=
  subScan p text.length text

/-- `SensitiveDataFilter._mask_sensitive_data` (filters.py lines
114-129): apply the substitution for every pattern, in list order. -/
def maskSensitiveData (text : List Char) : List Char :=
  SENSITIVE_PATTERNS.foldl (fun t p => maskOnePattern p t) text

/-- Is `p` a contiguous substring of `cs` (Python `in` on `str`)? -/
def containsSub (p cs : List Char) : Bool :=
  match cs with
  | [] => p.isEmpty
  | _ :: rest => p.isPrefixOf cs || containsSub p rest

/-- Message rewriting of `SensitiveDataFilter.filter` (filters.py lines
94-112): for a non-empty message whose lowercase form contains some
sensitive key, `record.msg` is replaced by the masked text; otherwise it
is left unchanged. -/
def sensitiveFilterMsg (msg : List Char) : List Char :=
  if msg.isEmpty then msg
  else if SENSITIVE_PATTERNS.any
      (fun p => containsSub p (msg.map Char.toLower)) then
    maskSensitiveData msg
  else msg

/-- `SensitiveDataFilter.filter` always returns `True` (keep) and leaves
the possibly-rewritten message on the record. -/
def sensitiveFilter (msg : List Char) : Bool × List Char :=
  (true, sensitiveFilterMsg msg)

/-- C7: the masking filter always returns keep; a value following a
configured sensitive key, an optional quote, a `:`/`=` separator and
terminated by quote, comma, whitespace or closing brace is replaced by
the fixed mask token (shown for every configured key); multiple distinct
keys in one message are masked independently; `"password=secret123"`
yields the mask token and no `"secret123"`, and `"normal text"` is
unchanged. -/
theorem sensitiveFilter_spec :
    (∀ msg : List Char, (sensitiveFilter msg).1 = true) ∧
    ((sensitiveFilter "password=secret123".data).2
        = "password=".data ++ maskToken ∧
      containsSub "secret123".data
          (sensitiveFilter "password=secret123".data).2 = false ∧
      containsSub maskToken
          (sensitiveFilter "password=secret123".data).2 = true) ∧
    (sensitiveFilter "normal text".data).2 = "normal text".data ∧
    (SENSITIVE_PATTERNS.all fun p =>
        (sensitiveFilter (p ++ "=secret123".data)).2
          == p ++ "=".data ++ maskToken) = true ∧
    (sensitiveFilter "token=a password=b".data).2
        = "token=".data ++ maskToken ++ " password=".data ++ maskToken ∧
    (sensitiveFilter ("password: ".data ++ [Char.ofNat 39] ++ "abc".data
          ++ [Char.ofNat 39] ++ " x".data)).2
        = "password: ".data ++ [Char.ofNat 39] ++ maskToken
          ++ [Char.ofNat 39] ++ " x".data ∧
    (sensitiveFilter "token=abc,def".data).2
        = "token=".data ++ maskToken ++ ",def".data := by
  refine ⟨fun msg => rfl, ⟨rfl, rfl, rfl⟩, rfl, rfl, rfl, rfl, rfl⟩

/-! ## Colored formatter (`ColoredFormatter`, formatters.py lines 15-62)

`ColoredFormatter.format` saves `record.levelname`, overwrites it with
the ANSI-wrapped name when the level has a colour, calls
`super().format(record)` (which renders the line and does not modify
`levelname`), then restores the saved `levelname` on the record.  The
base renderer is a parameter `base`; the final record state is returned
alongside the rendered string. -/

structure FormatRecord where
  levelname : List Char
  name : List Char
  msg : List Char
deriving DecidableEq

def ansiCode (s : List Char) : List Char :=
  [Char.ofNat 27, '['] ++ s ++ ['m']

/-- The `COLORS` table of `ColoredFormatter`. -/
def COLORS (levelname : List Char) : Option (List Char) :=
  if levelname = "DEBUG".data then some (ansiCode "36".data)
  else if levelname = "INFO".data then some (ansiCode "32".data)
  else if levelname = "WARNING".data then some (ansiCode "33".data)
  else if levelname = "ERROR".data then some (ansiCode "31".data)
  else if levelname = "CRITICAL".data then some (ansiCode "35".data)
  else none

def COLORS_RESET : List Char := ansiCode "0".data

/-- `ColoredFormatter.format`: returns the rendered string together with
the record as it is left after the call. -/
def coloredFormat (base : FormatRecord → List Char)
    (record : FormatRecord) : List Char × FormatRecord :=
  let levelname := record.levelname
  let record1 :=
    match COLORS levelname with
    | some color =>
        { record with levelname := color ++ levelname ++ COLORS_RESET }
    | none => record
  let result := base record1
  (result, { record1 with levelname := levelname })

/-- C8: the colored renderer restores the severity name (in fact the
whole record) after formatting, so formatting the same record afterwards
with any other renderer gives exactly the output it would give had the
colored renderer never run: colour wrapping is transient and does not
leak across sinks. -/
theorem coloredFormat_no_leak :
    ∀ (base other : FormatRecord → List Char) (record : FormatRecord),
      (coloredFormat base record).2.levelname = record.levelname ∧
        (coloredFormat base record).2 = record ∧
        other (coloredFormat base record).2 = other record := by
  intro base other record
  obtain ⟨levelname, name, msg⟩ := record
  have h : (coloredFormat base ⟨levelname, name, msg⟩).2
      = ⟨levelname, name, msg⟩ := by
    simp only [coloredFormat]
    split <;> rfl
  exact ⟨by rw [h], h, by rw [h]⟩

/-! ## Manager registry (`LoggerManager`, logger.py lines 121-181)

`LoggerManager.__new__` computes the identity key
`f"{config.name}_{config.environment}"`, returns the cached instance for
that key when present and otherwise caches a fresh one; `__init__`
returns immediately when the instance already has `_initialized` set, so
a cached instance keeps the configuration it was first built with.
Instances are identified by an allocation number `mid`. -/

structure LogConfig where
  name : List Char
  environment : List Char
  level : Int
deriving DecidableEq

structure LoggerManager where
  mid : Nat
  config : LogConfig
deriving DecidableEq

/-- The singleton key `f"{name}_{environment}"`. -/
def managerKey (name environment : List Char) : List Char :=
  name ++ ['_'] ++ environment

structure ManagerRegistry where
  instances : List (List Char × LoggerManager)
  nextId : Nat
deriving DecidableEq

def lookupInstance :
    List (List Char × LoggerManager) → List Char → Option LoggerManager
  | [], _ => none
  | (k, m) :: rest, key =>
      if k = key then some m else lookupInstance rest key

/-- `LoggerManager.__new__` followed by `__init__`: a cache hit returns
the existing instance unchanged (its `_initialized` guard skips
re-initialisation); a miss allocates a fresh instance initialised with
the given configuration. -/
def loggerManagerConstruct (s : ManagerRegistry) (config : LogConfig) :
    ManagerRegistry × LoggerManager :=
  let key := managerKey config.name config.environment
  match lookupInstance s.instances key with
  | some m => (s, m)
  | none =>
      let m : LoggerManager := ⟨s.nextId, config⟩
      (⟨s.instances ++ [(key, m)], s.nextId + 1⟩, m)

def emptyRegistry : ManagerRegistry := ⟨[], 0⟩

/-- Registry invariant: allocated instance numbers are distinct and below
the allocation counter. -/
def RegistryWf (s : ManagerRegistry) : Prop :=
  (s.instances.map (fun km => km.2.mid)).Nodup ∧
    ∀ km ∈ s.instances, km.2.mid < s.nextId

theorem lookupInstance_mem {l : List (List Char × LoggerManager)}
    {key : List Char} {m : LoggerManager}
    (h : lookupInstance l key = some m) : (key, m) ∈ l := by
  induction l with
  | nil => simp [lookupInstance] at h
  | cons km rest ih =>
    obtain ⟨k, m0⟩ := km
    by_cases hk : k = key
    · subst hk
      simp [lookupInstance] at h
      subst h
      exact List.mem_cons_self _ _
    · simp [lookupInstance, hk] at h
      exact List.mem_cons_of_mem _ (ih h)

theorem lookupInstance_append (l : List (List Char × LoggerManager))
    (k0 : List Char) (m0 : LoggerManager) (key : List Char) :
    lookupInstance (l ++ [(k0, m0)]) key
      = match lookupInstance l key with
        | some m => some m
        | none => if k0 = key then some m0 else none := by
  induction l with
  | nil => simp [lookupInstance]
  | cons km rest ih =>
    obtain ⟨k, m⟩ := km
    by_cases hk : k = key
    · simp [lookupInstance, hk]
    · simp only [List.cons_append, lookupInstance, hk, if_false]
      exact ih

/-- C9: repeated construction requests with the same identity
`(name, environment)` return the same pipeline instance; for a
well-formed registry, a request with the same name but a different
environment returns a different instance; concretely, from an empty
registry `("svc", "prod")` twice yields one shared instance and
`("svc", "dev")` a distinct one. -/
theorem loggerManager_identity :
    (∀ (s : ManagerRegistry) (config : LogConfig),
      (loggerManagerConstruct
          (loggerManagerConstruct s config).1 config).2
        = (loggerManagerConstruct s config).2) ∧
    (∀ (s : ManagerRegistry) (c1 c2 : LogConfig), RegistryWf s →
      c1.name = c2.name → c1.environment ≠ c2.environment →
      (loggerManagerConstruct
          (loggerManagerConstruct s c1).1 c2).2.mid
        ≠ (loggerManagerConstruct s c1).2.mid) ∧
    ((loggerManagerConstruct
        (loggerManagerConstruct emptyRegistry
          ⟨"svc".data, "prod".data, 20⟩).1
        ⟨"svc".data, "prod".data, 20⟩).2
      = (loggerManagerConstruct emptyRegistry
          ⟨"svc".data, "prod".data, 20⟩).2 ∧
      (loggerManagerConstruct
          (loggerManagerConstruct emptyRegistry
            ⟨"svc".data, "prod".data, 20⟩).1
          ⟨"svc".data, "dev".data, 20⟩).2.mid
        ≠ (loggerManagerConstruct emptyRegistry
            ⟨"svc".data, "prod".data, 20⟩).2.mid) := by
  refine ⟨?_, ?_, by decide, by decide⟩
  · intro s config
    cases h : lookupInstance s.instances
        (managerKey config.name config.environment) with
    | some m => simp [loggerManagerConstruct, h]
    | none =>
      simp only [loggerManagerConstruct, h, lookupInstance_append]
      simp
  · intro s c1 c2 hwf hname henv
    have hkey : managerKey c1.name c1.environment
        ≠ managerKey c2.name c2.environment := by
      intro hk
      apply henv
      unfold managerKey at hk
      rw [hname, List.append_assoc, List.append_assoc] at hk
      have h2 := List.append_cancel_left hk
      exact List.append_cancel_left h2
    cases h1 : lookupInstance s.instances
        (managerKey c1.name c1.environment) with
    | some m1 =>
      have hm1 : ((managerKey c1.name c1.environment), m1) ∈ s.instances :=
        lookupInstance_mem h1
      cases h2 : lookupInstance s.instances
          (managerKey c2.name c2.environment) with
      | some m2 =>
        have hm2 : ((managerKey c2.name c2.environment), m2) ∈ s.instances :=
          lookupInstance_mem h2
        simp only [loggerManagerConstruct, h1, h2]
        intro hmid
        have := List.inj_on_of_nodup_map hwf.1 hm2 hm1 hmid
        exact hkey (congrArg Prod.fst this).symm
      | none =>
        have hlt : m1.mid < s.nextId := hwf.2 _ hm1
        simp only [loggerManagerConstruct, h1, h2]
        omega
    | none =>
      simp only [loggerManagerConstruct, h1, lookupInstance_append]
      cases h2 : lookupInstance s.instances
          (managerKey c2.name c2.environment) with
      | some m2 =>
        have hm2 : ((managerKey c2.name c2.environment), m2) ∈ s.instances :=
          lookupInstance_mem h2
        have hlt : m2.mid < s.nextId := hwf.2 _ hm2
        simp only [h2]
        omega
      | none =>
        simp only [h2, if_neg hkey]
        omega

/-- Witness for C9 at concrete inputs: from the empty registry,
`("svc", "prod")` and `("svc", "dev")` yield distinct instances. -/
theorem loggerManager_identity_witness :
    (loggerManagerConstruct
        (loggerManagerConstruct emptyRegistry
          ⟨"svc".data, "prod".data, 20⟩).1
        ⟨"svc".data, "dev".data, 20⟩).2.mid
      ≠ (loggerManagerConstruct emptyRegistry
          ⟨"svc".data, "prod".data, 20⟩).2.mid :=
  loggerManager_identity.2.1 emptyRegistry
    ⟨"svc".data, "prod".data, 20⟩ ⟨"svc".data, "dev".data, 20⟩
    ⟨List.nodup_nil, by simp [emptyRegistry]⟩ rfl (by decide)

/-- C10: the identity key is the bare concatenation
`name ++ "_" ++ environment`, so the distinct identities
`("a_b", "c")` and `("a", "b_c")` collide: the second construction
request returns the very instance cached for the first and leaves the
registry unchanged, and the second request's configuration is silently
ignored — the shared instance keeps the first configuration. -/
theorem loggerManager_key_collision :
    managerKey "a_b".data "c".data = managerKey "a".data "b_c".data ∧
    (loggerManagerConstruct
        (loggerManagerConstruct emptyRegistry
          ⟨"a_b".data, "c".data, 20⟩).1
        ⟨"a".data, "b_c".data, 10⟩).2
      = (loggerManagerConstruct emptyRegistry
          ⟨"a_b".data, "c".data, 20⟩).2 ∧
    (loggerManagerConstruct
        (loggerManagerConstruct emptyRegistry
          ⟨"a_b".data, "c".data, 20⟩).1
        ⟨"a".data, "b_c".data, 10⟩).2.config
      = ⟨"a_b".data, "c".data, 20⟩ ∧
    (⟨"a_b".data, "c".data, 20⟩ : LogConfig)
      ≠ ⟨"a".data, "b_c".data, 10⟩ ∧
    (loggerManagerConstruct
        (loggerManagerConstruct emptyRegistry
          ⟨"a_b".data, "c".data, 20⟩).1
        ⟨"a".data, "b_c".data, 10⟩).1
      = (loggerManagerConstruct emptyRegistry
          ⟨"a_b".data, "c".data, 20⟩).1 := by
  refine ⟨by decide, by decide, by decide, by decide, by decide⟩

end AdvancedLogging
